import Mathlib

/-!
# pcrexx: `basic_pattern<T>` (src/code/pattern.hpp)

A shallow embedding of the pattern wrapper and of the properties stated about
it.  The regular-expression engine (`traits<T>` over `pcre.h`) is an external
collaborator: it is a parameter, `Engine`, whose operations are pure functions
of their arguments (a deterministic engine).  Pointers are addresses, `0` is
the null pointer, `int` is `Int`, `std::cerr` is the list of lines written to
it, and a read outside mapped memory has no defined result (`none`).
-/

set_option autoImplicit false

namespace pcrexx

/-! ## Constants of `pcre.h` -/

/-- Request code of `pcre_fullinfo` for the number of capturing groups. -/
def PCRE_INFO_CAPTURECOUNT : Int := 2

/-- Request code of `pcre_fullinfo` for the size of one name-table entry. -/
def PCRE_INFO_NAMEENTRYSIZE : Int := 7

/-- Request code of `pcre_fullinfo` for the number of name-table entries. -/
def PCRE_INFO_NAMECOUNT : Int := 8

/-- Request code of `pcre_fullinfo` for the address of the name table. -/
def PCRE_INFO_NAMETABLE : Int := 9

/-- Status of `pcre_get_stringnumber` when no group has the given name. -/
def PCRE_ERROR_NOSUBSTRING : Int := -7

/-- Smallest value of a 32-bit `int`. -/
def INT_MIN : Int := -2147483648

/-- Largest value of a 32-bit `int`. -/
def INT_MAX : Int := 2147483647

/-! ## Strings and memory -/

/-- The `string_type` of the traits: a sequence of code units of `char_type`
(bytes for `basic_pattern<char>`); it may hold embedded zero units. -/
abbrev string_type := List Nat

/-- The `handle_type` of the traits: the address of the compiled pattern, `0`
when there is none. -/
abbrev handle_type := Nat

/-- The `const_char_ptr` of the traits: an address counted in code units. -/
abbrev const_char_ptr := Int

/-- Code units of a literal, for writing patterns and names. -/
def units (s : String) : string_type := s.toList.map Char.toNat

/-- What `std::basic_string::c_str` shows to a reader of C strings: the code
units before the first zero. -/
def c_str (s : string_type) : string_type := s.takeWhile (fun c => c != 0)

/-- The mapped memory the engine's pointers point into: `cells` starts at
address `base`; no other address is mapped. -/
structure Memory where
  base : Nat
  cells : List Nat
deriving DecidableEq, Repr

/-- Read a zero-terminated string from the start of `cells`; `none` when the
cells end before a terminator is met. -/
def read_c_str : List Nat → Option string_type
  | [] => none
  | c :: rest => if c = 0 then some [] else (read_c_str rest).map (fun s => c :: s)

/-- Construction of a `string_type` from a `const_char_ptr`: the
zero-terminated string at address `a`, `none` when the read leaves `mem`. -/
def string_at (mem : Memory) (a : const_char_ptr) : Option string_type :=
  if a < (mem.base : Int) then none
  else read_c_str (mem.cells.drop (a - (mem.base : Int)).toNat)

/-- Product of two `int`s; signed overflow has no defined result. -/
def int_mul (a b : Int) : Option Int :=
  if INT_MIN ≤ a * b ∧ a * b ≤ INT_MAX then some (a * b) else none

/-! ## The engine -/

/-- What `traits_type::compile` leaves behind: the returned handle and, for
each output argument, the value written to it (`none`: left untouched). -/
structure CompileResult where
  handle : handle_type
  error : Option Int
  help : Option String
  offset : Option Int
deriving DecidableEq, Repr

/-- What `traits_type::query` leaves behind: the returned status and the value
written through `where` (`none`: left untouched). -/
structure QueryResult where
  status : Int
  value : Option Int
deriving DecidableEq, Repr

/-- The operations of `traits<T>` used by the pattern (traits.hpp and the
engine behind it are outside the source).  `compile` receives the C string of
the text, the options and the character tables; `query` the handle, the
`extra` block and the request code; `string_number` the handle and the C
string of the name. -/
structure Engine where
  compile : string_type → Int → Nat → CompileResult
  query : handle_type → Nat → Int → QueryResult
  string_number : handle_type → string_type → Int
  table_offset : Int

/-- A call that reaches the engine, as recorded in a trace. -/
inductive EngineCall where
  | compile (text : string_type) (options : Int)
  | query (pattern : handle_type) (what : Int)
  | string_number (pattern : handle_type) (name : string_type)
  | release (pattern : handle_type)
deriving DecidableEq, Repr

/-- Whether a recorded call is a call of `traits_type::release`. -/
def EngineCall.isRelease : EngineCall → Bool
  | .release _ => true
  | _ => false

/-! ## `basic_pattern` -/

/-- The data members of `basic_pattern<T>`. -/
structure basic_pattern where
  myText : string_type
  myHandle : handle_type
deriving DecidableEq, Repr

namespace basic_pattern

/-- The static `name_table`: the table pointer (null unless the engine writes
one) and the lines written to `std::cerr`. -/
def name_table (e : Engine) (pattern : handle_type) : const_char_ptr × List String :=
  let table : const_char_ptr := 0
  let r := e.query pattern 0 PCRE_INFO_NAMETABLE
  let table := r.value.getD table
  if r.status ≠ 0 then (table, ["Failed to fetch group name table!"])
  else (table, [])

/-- The static `name_table_stride`: the entry size (0 unless the engine writes
one) and the lines written to `std::cerr`. -/
def name_table_stride (e : Engine) (pattern : handle_type) : Int × List String :=
  let stride : Int := 0
  let r := e.query pattern 0 PCRE_INFO_NAMEENTRYSIZE
  let stride := r.value.getD stride
  if r.status ≠ 0 then (stride, ["Failed to fetch group name table stride!"])
  else (stride, [])

/-- The line the constructor writes when compilation fails; the locals
`error` and `help` are streamed, `offset` is not. -/
def compile_failure_line (error : Int) (help : Option String) : String :=
  "Failed to compile pattern (" ++ toString error ++ ": '" ++ help.getD "" ++ "')!"

/-- The constructor: the constructed object and the lines written to
`std::cerr`. -/
def construct (e : Engine) (text : string_type) : basic_pattern × List String :=
  let myText := text
  let error : Int := 0
  let offset : Int := 0
  let options : Int := 0
  let r := e.compile (c_str myText) options 0
  let error := r.error.getD error
  let _offset := r.offset.getD offset
  let myHandle := r.handle
  if myHandle = 0 then
    ({ myText := myText, myHandle := myHandle }, [compile_failure_line error r.help])
  else
    ({ myText := myText, myHandle := myHandle }, [])

/-- The destructor: the calls it makes to the engine. -/
def destroy (p : basic_pattern) : List EngineCall :=
  [EngineCall.release p.myHandle]

/-- The accessor `handle()`. -/
def handle (p : basic_pattern) : handle_type := p.myHandle

/-- The accessor `text()`. -/
def text (p : basic_pattern) : string_type := p.myText

/-- The method `capturing_groups()`: the returned count and the lines written
to `std::cerr`. -/
def capturing_groups (e : Engine) (p : basic_pattern) : Int × List String :=
  let groups : Int := 0
  let r := e.query p.myHandle 0 PCRE_INFO_CAPTURECOUNT
  let groups := r.value.getD groups
  if r.status ≠ 0 then (groups, ["Failed to count groups!"])
  else (groups, [])

/-- The method `group_index(name)`: the returned index and the lines written
to `std::cerr` (the only write of the method is compiled out by `#if 0`). -/
def group_index (e : Engine) (p : basic_pattern) (name : string_type) : Int × List String :=
  let index := e.string_number p.myHandle (c_str name)
  if index = PCRE_ERROR_NOSUBSTRING then (index, [])
  else (index, [])

/-- The address `table+(i*stride)+traits_type::table_offset()`. -/
def name_address (e : Engine) (table : const_char_ptr) (stride : Int) (i : Int) :
    Option const_char_ptr :=
  (int_mul i stride).map (fun k => table + k + e.table_offset)

/-- The `for` loop of `group_names()` from index `i` on: `names` is the vector
built so far and `log` the lines written so far; the condition calls
`capturing_groups()` anew every time it is evaluated. -/
def group_names_loop (e : Engine) (mem : Memory) (p : basic_pattern)
    (table : const_char_ptr) (stride : Int) (i : Int) (names : List string_type)
    (log : List String) : Option (List string_type × List String) :=
  if i < (capturing_groups e p).1 then
    match (name_address e table stride i).bind (string_at mem) with
    | none => none
    | some s =>
      group_names_loop e mem p table stride (i + 1) (names ++ [s])
        (log ++ (capturing_groups e p).2)
  else some (names, log ++ (capturing_groups e p).2)
termination_by ((capturing_groups e p).1 - i).toNat
decreasing_by omega

/-- The method `group_names()`: the returned vector and the lines written to
`std::cerr`; `none` when a name is read outside mapped memory. -/
def group_names (e : Engine) (mem : Memory) (p : basic_pattern) :
    Option (List string_type × List String) :=
  let t := name_table e p.myHandle
  let s := name_table_stride e p.myHandle
  group_names_loop e mem p t.1 s.1 0 [] (t.2 ++ s.2)

end basic_pattern

/-! ## Sequences of introspection calls -/

/-- The public `const` methods of a pattern, as requests. -/
inductive Op where
  | handle
  | text
  | capturing_groups
  | group_index (name : string_type)
  | group_names
deriving DecidableEq, Repr

/-- What a method call returns; `names none` is a `group_names()` call whose
read left mapped memory. -/
inductive Outcome where
  | handle (h : handle_type)
  | text (t : string_type)
  | count (n : Int)
  | index (n : Int)
  | names (ns : Option (List string_type))
deriving DecidableEq, Repr

/-- One method call on the object `p`: the object after the call, the value
returned and the lines written to `std::cerr`. -/
def call (e : Engine) (mem : Memory) (p : basic_pattern) :
    Op → basic_pattern × Outcome × List String
  | .handle => (p, .handle p.handle, [])
  | .text => (p, .text p.text, [])
  | .capturing_groups => (p, .count (p.capturing_groups e).1, (p.capturing_groups e).2)
  | .group_index name => (p, .index (p.group_index e name).1, (p.group_index e name).2)
  | .group_names =>
    match p.group_names e mem with
    | none => (p, .names none, [])
    | some r => (p, .names (some r.1), r.2)

/-- The calls `ops` made one after the other on the object `p`: the object
after the last call and, per call, the value returned and the lines written. -/
def run (e : Engine) (mem : Memory) :
    basic_pattern → List Op → basic_pattern × List (Outcome × List String)
  | p, [] => (p, [])
  | p, op :: ops =>
    let r := call e mem p op
    let rest := run e mem r.1 ops
    (rest.1, r.2 :: rest.2)

/-! ## A concrete engine: PCRE on `(?<a>x)(?<b>y)(z)` -/

/-- The pattern text of the example. -/
def sampleText : string_type := units "(?<a>x)(?<b>y)(z)"

/-- Address of the compiled example pattern. -/
def sampleHandle : handle_type := 4096

/-- Address of the name table of the compiled example pattern. -/
def sampleTable : Int := 4104

/-- The memory of the compiled example: an 8-unit header, the name table (two
entries of 4 units: a 2-unit group number, the name, a terminator) and the
compiled code that follows it. -/
def sampleMemory : Memory :=
  { base := 4096
    cells := [69, 82, 67, 80, 0, 0, 0, 8] ++
      [0, 1, 97, 0, 0, 2, 98, 0] ++
      [131, 0, 39, 133, 0, 7, 0, 1, 29, 120, 120, 0] }

/-- An engine that compiles the example and rejects every other text the way
PCRE rejects an unbalanced parenthesis; requests on anything but the example
handle fail without writing, with `PCRE_ERROR_NULL` (-2) for the null handle
and `PCRE_ERROR_BADMAGIC` (-4) otherwise. -/
def sampleEngine : Engine :=
  { compile := fun text _ _ =>
      if text = sampleText then
        { handle := sampleHandle, error := none, help := none, offset := none }
      else
        { handle := 0, error := some 14, help := some "missing )", offset := some 1 }
    query := fun pattern _ what =>
      if pattern = sampleHandle then
        if what = PCRE_INFO_CAPTURECOUNT then { status := 0, value := some 3 }
        else if what = PCRE_INFO_NAMEENTRYSIZE then { status := 0, value := some 4 }
        else if what = PCRE_INFO_NAMECOUNT then { status := 0, value := some 2 }
        else if what = PCRE_INFO_NAMETABLE then { status := 0, value := some sampleTable }
        else { status := -3, value := none }
      else if pattern = 0 then { status := -2, value := none }
      else { status := -4, value := none }
    string_number := fun pattern name =>
      if pattern = sampleHandle then
        if name = units "a" then 1
        else if name = units "b" then 2
        else PCRE_ERROR_NOSUBSTRING
      else if pattern = 0 then -2
      else -4
    table_offset := 2 }

/-- The example pattern, constructed. -/
def samplePattern : basic_pattern := (basic_pattern.construct sampleEngine sampleText).1

/-- The pattern left by a failed compilation of `(`. -/
def failedPattern : basic_pattern := (basic_pattern.construct sampleEngine (units "(")).1

/-- The example engine with the outcome of `compile` replaced by `r`. -/
def engineCompiling (r : CompileResult) : Engine :=
  { sampleEngine with compile := fun _ _ _ => r }

/-! ## The walk of `group_names()` in closed form -/

namespace basic_pattern

/-- The strings of `k` consecutive entries from index `i` on, each read at
`name_address`; `none` as soon as one read is undefined. -/
def read_names (e : Engine) (mem : Memory) (table : const_char_ptr) (stride : Int) :
    Nat → Int → Option (List string_type)
  | 0, _ => some []
  | k + 1, i =>
    match (name_address e table stride i).bind (string_at mem) with
    | none => none
    | some s => (read_names e mem table stride k (i + 1)).map (fun ss => s :: ss)

end basic_pattern

/-! ## Reading a decimal rendering back -/

/-- The number a decimal digit character stands for. -/
def digit_value (c : Char) : Nat := c.toNat - 48

/-- The number a list of decimal digit characters stands for. -/
def decimal_value (cs : List Char) : Nat := cs.foldl (fun a c => a * 10 + digit_value c) 0

/-! ## Lemmas on the walk -/

namespace basic_pattern

/-- The loop started at index `i` with `m` iterations left reads `m` entries
and evaluates its condition `m + 1` times. -/
theorem group_names_loop_eq (e : Engine) (mem : Memory) (p : basic_pattern)
    (table : const_char_ptr) (stride : Int) :
    ∀ (m : Nat) (i : Int) (names : List string_type) (log : List String),
      ((capturing_groups e p).1 - i).toNat = m →
      group_names_loop e mem p table stride i names log =
        (read_names e mem table stride m i).map (fun ss =>
          (names ++ ss, log ++ (List.replicate (m + 1) (capturing_groups e p).2).flatten)) := by
  intro m
  induction m with
  | zero =>
    intro i names log h
    have hi : ¬ i < (capturing_groups e p).1 := by omega
    rw [group_names_loop, if_neg hi]
    simp [read_names]
  | succ m ih =>
    intro i names log h
    have hi : i < (capturing_groups e p).1 := by omega
    rw [group_names_loop, if_pos hi]
    cases hr : (name_address e table stride i).bind (string_at mem) with
    | none => simp [read_names, hr]
    | some s =>
      have h1 : ((capturing_groups e p).1 - (i + 1)).toNat = m := by omega
      simp only [read_names, hr]
      rw [ih (i + 1) (names ++ [s]) (log ++ (capturing_groups e p).2) h1]
      cases read_names e mem table stride m (i + 1) with
      | none => rfl
      | some ss => simp [List.replicate_succ, List.append_assoc]

/-- The method `group_names()` as a walk over the first `capturing_groups()`
entries. -/
theorem group_names_eq (e : Engine) (mem : Memory) (p : basic_pattern) :
    group_names e mem p =
      (read_names e mem (name_table e p.myHandle).1 (name_table_stride e p.myHandle).1
          (capturing_groups e p).1.toNat 0).map (fun ss =>
        (ss, (name_table e p.myHandle).2 ++ (name_table_stride e p.myHandle).2 ++
          (List.replicate ((capturing_groups e p).1.toNat + 1)
            (capturing_groups e p).2).flatten)) := by
  unfold group_names
  simp only []
  rw [group_names_loop_eq e mem p _ _ (capturing_groups e p).1.toNat 0 [] _ (by simp)]
  simp

/-- A defined walk over `k` entries yields `k` strings. -/
theorem read_names_length (e : Engine) (mem : Memory) (table : const_char_ptr) (stride : Int) :
    ∀ (k : Nat) (i : Int) (ss : List string_type),
      read_names e mem table stride k i = some ss → ss.length = k := by
  intro k
  induction k with
  | zero =>
    intro i ss h
    simp [read_names] at h
    simp [← h]
  | succ k ih =>
    intro i ss h
    simp only [read_names] at h
    cases hr : (name_address e table stride i).bind (string_at mem) with
    | none => simp [hr] at h
    | some s =>
      simp only [hr] at h
      cases hk : read_names e mem table stride k (i + 1) with
      | none => simp [hk] at h
      | some tl =>
        simp [hk] at h
        rw [← h, List.length_cons, ih (i + 1) tl hk]

/-- The `j`-th string of a defined walk is the one read at index `i + j`. -/
theorem read_names_get (e : Engine) (mem : Memory) (table : const_char_ptr) (stride : Int) :
    ∀ (k : Nat) (i : Int) (ss : List string_type),
      read_names e mem table stride k i = some ss →
      ∀ j : Nat, j < k →
        (name_address e table stride (i + j)).bind (string_at mem) = ss[j]? := by
  intro k
  induction k with
  | zero => intro i ss _ j hj; omega
  | succ k ih =>
    intro i ss h j hj
    simp only [read_names] at h
    cases hr : (name_address e table stride i).bind (string_at mem) with
    | none => simp [hr] at h
    | some s =>
      simp only [hr] at h
      cases hk : read_names e mem table stride k (i + 1) with
      | none => simp [hk] at h
      | some tl =>
        simp [hk] at h
        subst h
        cases j with
        | zero => simpa using hr
        | succ j =>
          have := ih (i + 1) tl hk j (by omega)
          have e1 : i + ((j + 1 : Nat) : Int) = i + 1 + (j : Int) := by push_cast; ring
          rw [e1, this]
          simp

/-- A walk all of whose reads are defined is defined. -/
theorem read_names_isSome (e : Engine) (mem : Memory) (table : const_char_ptr) (stride : Int) :
    ∀ (k : Nat) (i : Int),
      (∀ j : Nat, j < k →
        ((name_address e table stride (i + j)).bind (string_at mem)).isSome = true) →
      (read_names e mem table stride k i).isSome = true := by
  intro k
  induction k with
  | zero => intro i _; simp [read_names]
  | succ k ih =>
    intro i h
    have h0 := h 0 (by omega)
    simp only [Nat.cast_zero, add_zero] at h0
    obtain ⟨s, hs⟩ := Option.isSome_iff_exists.mp h0
    have hk : (read_names e mem table stride k (i + 1)).isSome = true := by
      apply ih
      intro j hj
      have := h (j + 1) (by omega)
      have e1 : i + ((j + 1 : Nat) : Int) = i + 1 + (j : Int) := by push_cast; ring
      rwa [e1] at this
    obtain ⟨tl, htl⟩ := Option.isSome_iff_exists.mp hk
    simp [read_names, hs, htl]

end basic_pattern

/-! ## Lemmas on the diagnostic of the constructor -/

/-- The character of a digit below ten stands for it and is neither a colon
nor a minus sign. -/
theorem digitChar_spec (k : Nat) (h : k < 10) :
    digit_value (Nat.digitChar k) = k ∧ Nat.digitChar k ≠ ':' ∧ Nat.digitChar k ≠ '-' := by
  interval_cases k <;> decide

/-- The digits are put in front of the accumulator. -/
theorem toDigitsCore_append (fuel : Nat) :
    ∀ (n : Nat) (ds : List Char),
      Nat.toDigitsCore 10 fuel n ds = Nat.toDigitsCore 10 fuel n [] ++ ds := by
  induction fuel with
  | zero => intro n ds; simp [Nat.toDigitsCore]
  | succ fuel ih =>
    intro n ds
    simp only [Nat.toDigitsCore]
    by_cases h : n / 10 = 0
    · simp [h]
    · simp only [h, if_false]
      rw [ih (n / 10) (Nat.digitChar (n % 10) :: ds), ih (n / 10) [Nat.digitChar (n % 10)]]
      simp

/-- The digits written for `n` stand for `n`. -/
theorem decimal_value_toDigitsCore (fuel : Nat) :
    ∀ n : Nat, n < fuel → decimal_value (Nat.toDigitsCore 10 fuel n []) = n := by
  induction fuel with
  | zero => intro n h; omega
  | succ fuel ih =>
    intro n hn
    simp only [Nat.toDigitsCore]
    have hd := (digitChar_spec (n % 10) (Nat.mod_lt _ (by decide))).1
    by_cases h : n / 10 = 0
    · simp only [h, if_true, decimal_value, List.foldl, hd]
      omega
    · simp only [h, if_false]
      rw [toDigitsCore_append]
      have := ih (n / 10) (by omega)
      simp only [decimal_value] at this
      simp only [decimal_value, List.foldl_append, List.foldl, this, hd]
      omega

/-- The digits written hold neither a colon nor a minus sign. -/
theorem toDigitsCore_clean (fuel : Nat) :
    ∀ (n : Nat) (c : Char), c ∈ Nat.toDigitsCore 10 fuel n [] → c ≠ ':' ∧ c ≠ '-' := by
  induction fuel with
  | zero => intro n c h; simp [Nat.toDigitsCore] at h
  | succ fuel ih =>
    intro n c hc
    simp only [Nat.toDigitsCore] at hc
    have hd := (digitChar_spec (n % 10) (Nat.mod_lt _ (by decide))).2
    by_cases h : n / 10 = 0
    · simp only [h, if_true, List.mem_singleton] at hc
      rw [hc]; exact hd
    · simp only [h, if_false] at hc
      rw [toDigitsCore_append] at hc
      rcases List.mem_append.mp hc with h1 | h1
      · exact ih _ _ h1
      · rw [List.mem_singleton.mp h1]; exact hd

/-- The characters of the decimal rendering of a natural number. -/
theorem nat_repr_data (n : Nat) : (Nat.repr n).data = Nat.toDigitsCore 10 (n + 1) n [] := rfl

/-- The decimal rendering of an `int` holds no colon. -/
theorem int_toString_clean (i : Int) : ':' ∉ (toString i).data := by
  cases i with
  | ofNat n =>
    show ':' ∉ (Nat.repr n).data
    rw [nat_repr_data]
    intro h
    exact (toDigitsCore_clean _ _ _ h).1 rfl
  | negSucc n =>
    show ':' ∉ ("-" ++ Nat.repr (n + 1)).data
    rw [String.data_append, nat_repr_data]
    intro h
    rcases List.mem_append.mp h with h1 | h1
    · revert h1; decide
    · exact (toDigitsCore_clean _ _ _ h1).1 rfl

/-- Natural numbers with the same decimal rendering are equal. -/
theorem nat_repr_injective (a b : Nat) (h : (Nat.repr a).data = (Nat.repr b).data) : a = b := by
  rw [nat_repr_data, nat_repr_data] at h
  have ha := decimal_value_toDigitsCore (a + 1) a (by omega)
  have hb := decimal_value_toDigitsCore (b + 1) b (by omega)
  rw [h] at ha
  omega

/-- An `int` is determined by its decimal rendering. -/
theorem int_toString_injective (i j : Int) (h : toString i = toString j) : i = j := by
  have hd : (toString i).data = (toString j).data := by rw [h]
  cases i with
  | ofNat a =>
    cases j with
    | ofNat b =>
      change (Nat.repr a).data = (Nat.repr b).data at hd
      rw [nat_repr_injective a b hd]
    | negSucc b =>
      change (Nat.repr a).data = ("-" ++ Nat.repr (b + 1)).data at hd
      rw [String.data_append, nat_repr_data] at hd
      have hm : '-' ∈ Nat.toDigitsCore 10 (a + 1) a [] := by rw [hd]; simp
      exact absurd rfl (toDigitsCore_clean _ _ _ hm).2
  | negSucc a =>
    cases j with
    | ofNat b =>
      change ("-" ++ Nat.repr (a + 1)).data = (Nat.repr b).data at hd
      rw [String.data_append, nat_repr_data (b)] at hd
      have hm : '-' ∈ Nat.toDigitsCore 10 (b + 1) b [] := by rw [← hd]; simp
      exact absurd rfl (toDigitsCore_clean _ _ _ hm).2
    | negSucc b =>
      change ("-" ++ Nat.repr (a + 1)).data = ("-" ++ Nat.repr (b + 1)).data at hd
      rw [String.data_append, String.data_append] at hd
      have := nat_repr_injective _ _ (List.append_cancel_left hd)
      have : a = b := by omega
      rw [this]

/-- Two lists free of `x` followed by `x` and anything agree when the wholes agree. -/
theorem split_at_marker {α : Type} (x : α) :
    ∀ (u v r s : List α), x ∉ u → x ∉ v → u ++ x :: r = v ++ x :: s → u = v ∧ r = s := by
  intro u
  induction u with
  | nil =>
    intro v r s _ hv h
    cases v with
    | nil => simpa using h
    | cons b v =>
      simp at h
      exact absurd h.1 (by intro hx; exact hv (by simp [hx]))
  | cons a u ih =>
    intro v r s hu hv h
    cases v with
    | nil =>
      simp at h
      exact absurd h.1.symm (by intro hx; exact hu (by simp [hx]))
    | cons b v =>
      simp at h
      obtain ⟨hab, ht⟩ := h
      have := ih v r s (by intro hx; exact hu (by simp [hx])) (by intro hx; exact hv (by simp [hx])) ht
      exact ⟨by rw [hab, this.1], this.2⟩

namespace basic_pattern

/-- The failure line determines the error code and the message. -/
theorem compile_failure_line_injective (c c' : Int) (m m' : Option String)
    (h : compile_failure_line c m = compile_failure_line c' m') :
    c = c' ∧ m.getD "" = m'.getD "" := by
  have hd : (compile_failure_line c m).data = (compile_failure_line c' m').data := by rw [h]
  simp only [compile_failure_line, String.data_append, List.append_assoc] at hd
  have h1 := List.append_cancel_left hd
  simp only [List.cons_append, List.nil_append] at h1
  obtain ⟨hc, hr⟩ := split_at_marker ':' _ _ _ _ (int_toString_clean c) (int_toString_clean c') h1
  have hm := List.append_cancel_right (List.cons.inj (List.cons.inj hr).2).2
  exact ⟨int_toString_injective c c' (String.ext hc), String.ext hm⟩

end basic_pattern

/-! ## Claims -/

open basic_pattern

/-- C1: on the example `(?<a>x)(?<b>y)(z)`, where the engine reports three
capturing groups and a name table of two entries, `group_names()` returns
three elements, not the two names: the third is read from the compiled code
behind the table. -/
theorem group_names_sample_returns_three :
    (capturing_groups sampleEngine samplePattern).1 = 3 ∧
    (sampleEngine.query samplePattern.handle 0 PCRE_INFO_NAMECOUNT).value = some 2 ∧
    group_names sampleEngine sampleMemory samplePattern =
      some ([units "a", units "b", [39, 133]], []) := by
  refine ⟨by decide, by decide, ?_⟩
  rw [group_names_eq]
  decide

/-- C2, as stated, fails: the pattern left by a failed compilation has a null
handle, yet its destructor makes one release call, not none. -/
theorem destroy_failed_pattern_releases :
    ¬ (∀ (e : Engine) (text : string_type),
        ((destroy (construct e text).1).filter EngineCall.isRelease).length =
          if (construct e text).1.handle = 0 then 0 else 1) := by
  intro h
  have h1 := h sampleEngine (units "(")
  revert h1
  decide

/-- C2, amended: the destructor of a constructed pattern makes exactly one
engine call, a release of the handle that compilation returned, null or not. -/
theorem destroy_releases_held_handle_once (e : Engine) (text : string_type) :
    destroy (construct e text).1 = [EngineCall.release (e.compile (c_str text) 0 0).handle] ∧
    destroy (construct e text).1 = [EngineCall.release (construct e text).1.handle] ∧
    ((destroy (construct e text).1).filter EngineCall.isRelease).length = 1 := by
  unfold construct destroy handle
  by_cases h : (e.compile (c_str text) 0 0).handle = 0 <;> simp [h, EngineCall.isRelease]

/-- C3: when the engine rejects the text and fails every query on the null
handle without writing, the constructed pattern has no handle, counts zero
groups, lists no names, and construction wrote a diagnostic line. -/
theorem rejected_pattern_is_inert (e : Engine) (mem : Memory) (text : string_type)
    (hc : (e.compile (c_str text) 0 0).handle = 0)
    (hq : ∀ (extra : Nat) (what : Int),
      (e.query 0 extra what).status ≠ 0 ∧ (e.query 0 extra what).value = none) :
    (construct e text).1.handle = 0 ∧
    (capturing_groups e (construct e text).1).1 = 0 ∧
    (group_names e mem (construct e text).1).map Prod.fst = some [] ∧
    1 ≤ (construct e text).2.length := by
  have hp : (construct e text).1.myHandle = 0 := by simp [construct, hc]
  have hn : (capturing_groups e (construct e text).1).1 = 0 := by
    simp [capturing_groups, hp, hq]
  refine ⟨hp, hn, ?_, ?_⟩
  · rw [group_names_eq, hn]
    simp [read_names]
  · simp [construct, hc]

/-- C3 at the rejected text `(` of the example engine. -/
theorem rejected_pattern_is_inert_witness :
    (construct sampleEngine (units "(")).1.handle = 0 ∧
    (capturing_groups sampleEngine (construct sampleEngine (units "(")).1).1 = 0 ∧
    (group_names sampleEngine sampleMemory (construct sampleEngine (units "(")).1).map Prod.fst
      = some [] ∧
    1 ≤ (construct sampleEngine (units "(")).2.length :=
  rejected_pattern_is_inert sampleEngine sampleMemory (units "(") (by decide)
    (by intro extra what; constructor <;> simp [sampleEngine, sampleHandle])

/-- C8: `capturing_groups()` returns the written count and writes nothing
when the capture-count query succeeds; when the query fails without writing
it returns 0 and writes exactly one line. -/
theorem capturing_groups_contract (e : Engine) (p : basic_pattern) :
    (∀ v : Int, e.query p.handle 0 PCRE_INFO_CAPTURECOUNT = { status := 0, value := some v } →
      capturing_groups e p = (v, [])) ∧
    (∀ s : Int, s ≠ 0 →
      e.query p.handle 0 PCRE_INFO_CAPTURECOUNT = { status := s, value := none } →
      capturing_groups e p = (0, ["Failed to count groups!"])) := by
  constructor
  · intro v h
    simp only [handle] at h
    simp [capturing_groups, h]
  · intro s hs h
    simp only [handle] at h
    simp [capturing_groups, h, hs]

/-- C8 on the example pattern (query succeeds with 3) and on the pattern left
by a failed compilation (query fails with -2). -/
theorem capturing_groups_contract_witness :
    capturing_groups sampleEngine samplePattern = (3, []) ∧
    capturing_groups sampleEngine failedPattern = (0, ["Failed to count groups!"]) :=
  ⟨(capturing_groups_contract sampleEngine samplePattern).1 3 (by decide),
   (capturing_groups_contract sampleEngine failedPattern).2 (-2) (by decide) (by decide)⟩

/-- One call leaves the object as it was. -/
theorem call_fst (e : Engine) (mem : Memory) (p : basic_pattern) (op : Op) :
    (call e mem p op).1 = p := by
  cases op <;> simp only [call]
  cases group_names e mem p <;> rfl

/-- A sequence of calls leaves the object as it was. -/
theorem run_fst (e : Engine) (mem : Memory) (p : basic_pattern) (ops : List Op) :
    (run e mem p ops).1 = p := by
  induction ops with
  | nil => rfl
  | cons op ops ih => simp only [run, call_fst, ih]

/-- C4: `text()` of a constructed pattern is the text given to the
constructor, unit for unit, whether or not the engine accepts it, and it is
still that text after any sequence of introspection calls. -/
theorem text_round_trip (e : Engine) (mem : Memory) (text : string_type) (ops : List Op) :
    (construct e text).1.text = text ∧
    (run e mem (construct e text).1 ops).1.text = text := by
  have h : (construct e text).1.text = text := by
    unfold construct basic_pattern.text
    by_cases hc : (e.compile (c_str text) 0 0).handle = 0 <;> simp [hc]
  exact ⟨h, by rw [run_fst]; exact h⟩

/-- C5, as stated, fails: two rejections that differ only in the error offset
write the same diagnostic, so the offset is not part of it. -/
theorem compile_diagnostic_omits_offset :
    ¬ (∀ (e e' : Engine) (text : string_type),
        (e.compile (c_str text) 0 0).handle = 0 →
        (e'.compile (c_str text) 0 0).handle = 0 →
        (construct e text).2 = (construct e' text).2 →
        (e.compile (c_str text) 0 0).offset = (e'.compile (c_str text) 0 0).offset) := by
  intro h
  have h1 := h
    (engineCompiling { handle := 0, error := some 14, help := some "missing )", offset := some 1 })
    (engineCompiling { handle := 0, error := some 14, help := some "missing )", offset := some 5 })
    (units "((x)") rfl rfl (by decide)
  revert h1
  decide

/-- C5, amended: when compilation fails the constructor writes one line that
carries the engine's error code in decimal and its message (empty when the
engine supplies none); the line determines both, and rejections that agree on
code and message write the same line whatever their offsets. -/
theorem compile_diagnostic_reports_code_and_message (e : Engine) (text : string_type)
    (hc : (e.compile (c_str text) 0 0).handle = 0) :
    (construct e text).2 =
      ["Failed to compile pattern (" ++ toString ((e.compile (c_str text) 0 0).error.getD 0) ++
        ": '" ++ (e.compile (c_str text) 0 0).help.getD "" ++ "')!"] ∧
    (∀ (e' : Engine) (text' : string_type), (e'.compile (c_str text') 0 0).handle = 0 →
      (construct e' text').2 = (construct e text).2 →
      (e'.compile (c_str text') 0 0).error.getD 0 = (e.compile (c_str text) 0 0).error.getD 0 ∧
      (e'.compile (c_str text') 0 0).help.getD "" = (e.compile (c_str text) 0 0).help.getD "") ∧
    (∀ (e' : Engine) (text' : string_type), (e'.compile (c_str text') 0 0).handle = 0 →
      (e'.compile (c_str text') 0 0).error = (e.compile (c_str text) 0 0).error →
      (e'.compile (c_str text') 0 0).help = (e.compile (c_str text) 0 0).help →
      (construct e' text').2 = (construct e text).2) := by
  have h : ∀ (e : Engine) (text : string_type), (e.compile (c_str text) 0 0).handle = 0 →
      (construct e text).2 = [compile_failure_line ((e.compile (c_str text) 0 0).error.getD 0)
        (e.compile (c_str text) 0 0).help] := by
    intro e text hc
    simp [construct, hc]
  refine ⟨by rw [h e text hc]; rfl, ?_, ?_⟩
  · intro e' text' hc' heq
    rw [h e text hc, h e' text' hc'] at heq
    exact compile_failure_line_injective _ _ _ _ (List.cons.inj heq).1
  · intro e' text' hc' he hh
    rw [h e text hc, h e' text' hc', he, hh]

/-- C5, amended, on the example engine rejecting `(` with code 14. -/
theorem compile_diagnostic_reports_code_and_message_witness :
    (construct sampleEngine (units "(")).2 =
      ["Failed to compile pattern (" ++ toString ((14 : Int)) ++ ": '" ++ "missing )" ++ "')!"] :=
  (compile_diagnostic_reports_code_and_message sampleEngine (units "(") (by decide)).1

/-- C6, as stated, fails: on the pattern left by a failed compilation the
engine resolves a name to `PCRE_ERROR_NULL` (-2), a failure other than the
sentinel, and `group_index` writes nothing. -/
theorem group_index_unreported_failure :
    ¬ (∀ (e : Engine) (p : basic_pattern) (name : string_type),
        e.string_number p.handle (c_str name) < 0 →
        e.string_number p.handle (c_str name) ≠ PCRE_ERROR_NOSUBSTRING →
        (group_index e p name).2 ≠ []) := by
  intro h
  exact h sampleEngine failedPattern (units "a") (by decide) (by decide) (by decide)

/-- C6, amended: when name resolution fails with a status other than the
sentinel, `group_index` writes nothing and returns that status. -/
theorem group_index_silent_on_failure (e : Engine) (p : basic_pattern) (name : string_type)
    (hneg : e.string_number p.handle (c_str name) < 0)
    (hne : e.string_number p.handle (c_str name) ≠ PCRE_ERROR_NOSUBSTRING) :
    (group_index e p name).2 = [] ∧
    (group_index e p name).1 = e.string_number p.handle (c_str name) ∧
    (group_index e p name).1 < 0 ∧
    (group_index e p name).1 ≠ PCRE_ERROR_NOSUBSTRING := by
  have h1 : (group_index e p name).1 = e.string_number p.handle (c_str name) := by
    simp [group_index, handle]
  refine ⟨?_, h1, by rw [h1]; exact hneg, by rw [h1]; exact hne⟩
  simp [group_index]

/-- C6, amended, on the pattern left by a failed compilation of `(`. -/
theorem group_index_silent_on_failure_witness :
    (group_index sampleEngine failedPattern (units "a")).2 = [] ∧
    (group_index sampleEngine failedPattern (units "a")).1 =
      sampleEngine.string_number failedPattern.handle (c_str (units "a")) ∧
    (group_index sampleEngine failedPattern (units "a")).1 < 0 ∧
    (group_index sampleEngine failedPattern (units "a")).1 ≠ PCRE_ERROR_NOSUBSTRING :=
  group_index_silent_on_failure sampleEngine failedPattern (units "a") (by decide) (by decide)

/-- C7: `group_index(name)` returns what the engine's name resolution returns
for the handle and the name's C string, and writes nothing; on the example
`a` is 1, `b` is 2 and `nonexistent` is `PCRE_ERROR_NOSUBSTRING`. -/
theorem group_index_delegates (e : Engine) (p : basic_pattern) (name : string_type) :
    group_index e p name = (e.string_number p.handle (c_str name), []) ∧
    group_index sampleEngine samplePattern (units "a") = (1, []) ∧
    group_index sampleEngine samplePattern (units "b") = (2, []) ∧
    group_index sampleEngine samplePattern (units "nonexistent") =
      (PCRE_ERROR_NOSUBSTRING, []) := by
  refine ⟨?_, by decide, by decide, by decide⟩
  simp [group_index, handle]

/-- C9: in any sequence of introspection calls every call returns and writes
what the same call does on the fresh object, whatever came before it, and the
object, with its text and handle, is the same afterwards. -/
theorem introspection_repeatable (e : Engine) (mem : Memory) (p : basic_pattern)
    (ops : List Op) :
    (run e mem p ops).2 = ops.map (fun op => (call e mem p op).2) ∧
    (run e mem p ops).1 = p ∧
    (run e mem p ops).1.text = p.text ∧
    (run e mem p ops).1.handle = p.handle := by
  refine ⟨?_, run_fst e mem p ops, by rw [run_fst], by rw [run_fst]⟩
  induction ops with
  | nil => rfl
  | cons op ops ih => simp only [run, call_fst, ih, List.map_cons]

/-- The walk uses the engine only through `table_offset`. -/
theorem read_names_congr (e e' : Engine) (mem : Memory) (table : const_char_ptr) (stride : Int)
    (h : e'.table_offset = e.table_offset) :
    ∀ (k : Nat) (i : Int),
      read_names e' mem table stride k i = read_names e mem table stride k i := by
  intro k
  induction k with
  | zero => intro i; rfl
  | succ k ih =>
    intro i
    simp only [read_names, name_address, h, ih]

/-- An address computed for entry `i` is `table + i * stride + table_offset`. -/
theorem name_address_eq (e : Engine) (table : const_char_ptr) (stride i a : Int)
    (h : name_address e table stride i = some a) :
    a = table + i * stride + e.table_offset := by
  unfold name_address int_mul at h
  split at h <;> simp at h
  exact h.symm

/-- C10: a returned vector has exactly `max(capturing_groups(), 0)` elements,
the `i`-th being the zero-terminated string at offset
`i * stride + table_offset()` from the table base; the call returns whenever
those reads are defined; an entry whose index is at least a given entry count
is read at or beyond the end of a table of that many entries; and the result
does not depend on what the engine reports as its name count. -/
theorem group_names_walks_capture_count (e : Engine) (mem : Memory) (p : basic_pattern) :
    (∀ (names : List string_type) (log : List String),
      group_names e mem p = some (names, log) →
      (names.length : Int) = max (capturing_groups e p).1 0 ∧
      ∀ i : Nat, (i : Int) < (capturing_groups e p).1 →
        string_at mem ((name_table e p.handle).1 +
          ((i : Int) * (name_table_stride e p.handle).1 + e.table_offset)) = names[i]? ∧
        names[i]?.isSome = true) ∧
    ((∀ i : Nat, (i : Int) < (capturing_groups e p).1 →
        ((name_address e (name_table e p.handle).1 (name_table_stride e p.handle).1 i).bind
          (string_at mem)).isSome = true) →
      (group_names e mem p).isSome = true) ∧
    (∀ count i a : Int, 0 ≤ (name_table_stride e p.handle).1 → 0 ≤ e.table_offset →
      count ≤ i →
      name_address e (name_table e p.handle).1 (name_table_stride e p.handle).1 i = some a →
      (name_table e p.handle).1 + count * (name_table_stride e p.handle).1 ≤ a) ∧
    (∀ e' : Engine, e'.table_offset = e.table_offset →
      (∀ (h : handle_type) (extra : Nat) (what : Int), what ≠ PCRE_INFO_NAMECOUNT →
        e'.query h extra what = e.query h extra what) →
      group_names e' mem p = group_names e mem p) := by
  simp only [handle]
  refine ⟨?_, ?_, ?_, ?_⟩
  · intro names log h
    rw [group_names_eq] at h
    cases hr : read_names e mem (name_table e p.myHandle).1 (name_table_stride e p.myHandle).1
        (capturing_groups e p).1.toNat 0 with
    | none => simp [hr] at h
    | some ss =>
      simp [hr] at h
      obtain ⟨h1, _⟩ := h
      subst h1
      have hlen := read_names_length e mem _ _ _ _ _ hr
      refine ⟨by rw [hlen]; omega, ?_⟩
      intro i hi
      have hget := read_names_get e mem _ _ _ _ _ hr i (by omega)
      simp only [zero_add] at hget
      have hs : ss[i]?.isSome = true := by
        rw [List.getElem?_eq_getElem (by omega)]; rfl
      refine ⟨?_, hs⟩
      rw [← hget] at hs ⊢
      cases ha : name_address e (name_table e p.myHandle).1
          (name_table_stride e p.myHandle).1 (i : Int) with
      | none => simp [ha] at hs
      | some a =>
        have := name_address_eq e _ _ _ _ ha
        rw [this, Option.some_bind]
        congr 1
        ring
  · intro h
    rw [group_names_eq]
    have := read_names_isSome e mem (name_table e p.myHandle).1
      (name_table_stride e p.myHandle).1 (capturing_groups e p).1.toNat 0 (by
        intro j hj
        simp only [zero_add]
        exact h j (by omega))
    obtain ⟨ss, hss⟩ := Option.isSome_iff_exists.mp this
    simp [hss]
  · intro count i a hs ho hci ha
    have := name_address_eq e _ _ _ _ ha
    have hm : count * (name_table_stride e p.myHandle).1 ≤ i * (name_table_stride e p.myHandle).1 :=
      mul_le_mul_of_nonneg_right hci hs
    rw [this]
    linarith
  · intro e' ho hq
    have ht : name_table e' p.myHandle = name_table e p.myHandle := by
      simp only [name_table, hq _ _ _ (show PCRE_INFO_NAMETABLE ≠ PCRE_INFO_NAMECOUNT by decide)]
    have hst : name_table_stride e' p.myHandle = name_table_stride e p.myHandle := by
      simp only [name_table_stride,
        hq _ _ _ (show PCRE_INFO_NAMEENTRYSIZE ≠ PCRE_INFO_NAMECOUNT by decide)]
    have hcg : capturing_groups e' p = capturing_groups e p := by
      simp only [capturing_groups,
        hq _ _ _ (show PCRE_INFO_CAPTURECOUNT ≠ PCRE_INFO_NAMECOUNT by decide)]
    rw [group_names_eq, group_names_eq, ht, hst, hcg, read_names_congr e e' mem _ _ ho]

/-- C10 on the example: three groups against a table of two entries at
addresses 4104 to 4111; the vector has three elements and the third is the
string at address 4114. -/
theorem group_names_walks_capture_count_witness :
    (([units "a", units "b", [39, 133]] : List string_type).length : Int) =
      max (capturing_groups sampleEngine samplePattern).1 0 ∧
    string_at sampleMemory ((name_table sampleEngine samplePattern.handle).1 +
      (((2 : Nat) : Int) * (name_table_stride sampleEngine samplePattern.handle).1 +
        sampleEngine.table_offset)) = some [39, 133] ∧
    (name_table sampleEngine samplePattern.handle).1 +
      2 * (name_table_stride sampleEngine samplePattern.handle).1 ≤ 4114 :=
  have hg : group_names sampleEngine sampleMemory samplePattern =
      some ([units "a", units "b", [39, 133]], []) := by
    rw [group_names_eq]; decide
  ⟨((group_names_walks_capture_count sampleEngine sampleMemory samplePattern).1 _ _ hg).1,
   (((group_names_walks_capture_count sampleEngine sampleMemory samplePattern).1 _ _ hg).2 2
      (by decide)).1,
   (group_names_walks_capture_count sampleEngine sampleMemory samplePattern).2.2.1 2 2 4114
      (by decide) (by decide) (by decide) (by decide)⟩

end pcrexx
